import Mathlib

/-!
Verification development for the rustcommon metrics / time / heatmap crates.

Shallow embedding conventions:
* Rust `Instant` values are nanosecond counts, embedded as `Nat`.
* `CoarseInstant` values are whole-second counts, embedded as `Nat`.
* Unsigned 64-bit primitives are embedded as `Nat`; where the Rust code
  performs a wrapping (release-mode) `u64` subtraction or addition, the
  embedding applies the corresponding operation modulo `2 ^ 64` explicitly.
* `f64` arithmetic in the counter-rate computation is embedded as exact
  rational arithmetic (the rate values involved are far below the range
  where `f64` rounding could differ from exact arithmetic at the integer
  grain used by the claims).
* A Rust method that can panic is embedded as returning `Option`, with
  `none` for the panic.
-/

/-! ### u64 arithmetic helpers -/

/-- The modulus of the 64-bit unsigned integer type. -/
def U64 : Nat := 2 ^ 64

/-- Wrapping (release-mode) subtraction of two `u64` values, as in the
Rust expression `value - v0` on unsigned primitives. -/
def wsub (a b : Nat) : Nat :=
  if b ≤ a then a - b else a + U64 - b

/-- Wrapping `u64` addition, as in `fetch_add`. -/
def wadd (a b : Nat) : Nat := (a + b) % U64

/-! ### Metrics error type (src/metrics/src/error.rs via its uses) -/

/-- Error type returned by the channel layer: `Empty` means no reading is
present, `NoSummary` means the statistic was configured without a summary. -/
inductive MetricsError
  | Empty
  | NoSummary
deriving DecidableEq

/-! ### Channel (src/metrics/src/channel/mod.rs)

The channel stores a last-refresh instant, an emptiness flag, a current
reading and an optional summary.  The summary structure itself lives in a
different module; at the channel level the code only ever calls
`summary.increment(time, value, count)` and `summary.percentile(p)`, so the
summary is embedded as the list of samples inserted so far, and
`Channel.percentile` is parameterized by the summary query function. -/

/-- One sample handed to `summary.increment`. -/
structure Sample where
  time : Nat
  value : Nat
  count : Nat
deriving DecidableEq

/-- State of `Channel<Value, Count>` for a `u64`-valued statistic. -/
structure Channel where
  refreshed : Nat
  empty : Bool
  reading : Nat
  summary : Option (List Sample)
deriving DecidableEq

/-- `summary.increment(time, value, count)`: the summary records the sample. -/
def summaryIncrement (s : List Sample) (time value count : Nat) : List Sample :=
  s ++ [⟨time, value, count⟩]

/-- `Channel::new`: empty flag set, default (zero) reading, refresh instant
set to the construction-time `Instant::now()`, summary present iff the
statistic configured one (freshly built, hence without samples). -/
def Channel.new (now : Nat) (hasSummary : Bool) : Channel :=
  { refreshed := now
    empty := true
    reading := 0
    summary := if hasSummary then some [] else none }

/-- The rate sample of `record_counter`: `ceil(dv / elapsed_seconds)` where
`elapsed_seconds = dt.as_secs() + dt.subsec_nanos() / 1e9` and `dt` is the
elapsed time in nanoseconds.  Exact over the rationals this is
`ceil(dv * 1e9 / dtNanos)`, computed here by natural ceiling division. -/
def rateSample (dv dtNanos : Nat) : Nat :=
  (dv * 1000000000 + dtNanos - 1) / dtNanos

/-- `Channel::record_counter(time, value)`: returns the updated channel
state.  Mirrors the source: an early return when `time <= t0`; on a
non-empty channel with a summary, the refresh instant is stored, a single
rate sample is inserted, and the reading is stored; on a non-empty channel
without a summary only the reading is stored; on an empty channel the
reading, empty flag and refresh instant are stored. -/
def Channel.record_counter (c : Channel) (time value : Nat) : Channel :=
  let t0 := c.refreshed
  if time ≤ t0 then c
  else if c.empty = false then
    match c.summary with
    | some s =>
        let v0 := c.reading
        let dt := time - t0
        let dv := wsub value v0
        { c with
            refreshed := time
            summary := some (summaryIncrement s time (rateSample dv dt) 1)
            reading := value }
    | none => { c with reading := value }
  else
    { c with reading := value, empty := false, refreshed := time }

/-- `Channel::increment_counter(value)`: clears the empty flag and performs
a `fetch_add` on the reading; no other field is touched. -/
def Channel.increment_counter (c : Channel) (value : Nat) : Channel :=
  { c with empty := false, reading := wadd c.reading value }

/-- `Channel::record_gauge(time, value)`: early return when
`time <= refreshed`; otherwise the value is inserted into the summary with
count 1 when a summary is present, and the reading, empty flag and refresh
instant are stored. -/
def Channel.record_gauge (c : Channel) (time value : Nat) : Channel :=
  if time ≤ c.refreshed then c
  else
    let c1 :=
      match c.summary with
      | some s => { c with summary := some (summaryIncrement s time value 1) }
      | none => c
    { c1 with reading := value, empty := false, refreshed := time }

/-- `Channel::record_bucket(time, value, count)`: inserts into the summary
when one is present, otherwise fails with `NoSummary`; returns the updated
state together with the `Result`. -/
def Channel.record_bucket (c : Channel) (time value count : Nat) :
    Channel × Except MetricsError Unit :=
  match c.summary with
  | some s =>
      ({ c with summary := some (summaryIncrement s time value count) }, .ok ())
  | none => (c, .error .NoSummary)

/-- `Channel::percentile(p)`: delegates to the summary when present,
otherwise fails with `NoSummary`.  The summary query itself lives outside
this module, so it is passed in as a function `sp`. -/
def Channel.percentile (sp : List Sample → ℚ → Except MetricsError Nat)
    (c : Channel) (p : ℚ) : Except MetricsError Nat :=
  match c.summary with
  | some s => sp s p
  | none => .error .NoSummary

/-- `Channel::reading()`: the raw reading when the channel is non-empty,
`Empty` otherwise. -/
def Channel.reading_result (c : Channel) : Except MetricsError Nat :=
  if c.empty = false then .ok c.reading else .error .Empty

/-! ### Clock (src/time/src/lib.rs)

The clock caches a coarse instant (whole seconds), a precise instant
(nanoseconds) and a unix timestamp, together with an initialization flag.
`refresh_with_sec_timestamp` can panic, so it returns
`Option (Clock × Bool)` with `none` for the panic. -/

/-- State of the `Clock` struct. -/
structure Clock where
  initialized : Bool
  recent_coarse : Nat
  recent_precise : Nat
  recent_unix : Nat
deriving DecidableEq

/-- `Clock::new()`: all fields zeroed, not initialized. -/
def Clock.new : Clock :=
  { initialized := false, recent_coarse := 0, recent_precise := 0, recent_unix := 0 }

/-- `Clock::refresh_with_sec_timestamp(timestamp)`: stores the precise and
coarse instants derived from the timestamp (the coarse store is a swap
returning the previous value `last`), then returns `true` when the time
advanced by more than one second, panics when it went backwards by more
than one second, and returns `false` otherwise.  The initialized flag is
never written (that code is commented out in the source). -/
def Clock.refresh_with_sec_timestamp (c : Clock) (timestamp : Nat) :
    Option (Clock × Bool) :=
  let last := c.recent_coarse
  let c1 := { c with
                recent_precise := timestamp * 1000000000
                recent_coarse := timestamp }
  if last + 1 < timestamp then some (c1, true)
  else if timestamp < last then
    if 1 < last - timestamp then none
    else some (c1, false)
  else some (c1, false)

/-- `Clock::initialize()`: when the flag is unset, runs
`refresh_with_sec_timestamp(0)` (which never sets the flag); otherwise a
no-op. -/
def Clock.initClock (c : Clock) : Option Clock :=
  if c.initialized = false then
    (c.refresh_with_sec_timestamp 0).map Prod.fst
  else some c

/-- `Clock::recent_precise()`: initializes, then loads the cached precise
instant. -/
def Clock.recent_precise_result (c : Clock) : Option (Clock × Nat) :=
  (c.initClock).map (fun c1 => (c1, c1.recent_precise))

/-- `Clock::recent_unix()`: initializes, then loads the cached unix time. -/
def Clock.recent_unix_result (c : Clock) : Option (Clock × Nat) :=
  (c.initClock).map (fun c1 => (c1, c1.recent_unix))

/-! ### Heatmap (src/heatmap)

Only the crate root with its test (src/heatmap/src/lib.rs) is present in
the sources; the modules `heatmaps`, `window` and the bucket scheme of
`rustcommon_histogram` are not, so the definitions below are modelled from
the spec (sections 4.1 to 4.3): a log-linear bucket scheme, a ring of
generation-tagged windows with lazy eviction, and a percentile merge over
the non-stale windows.  A window's bucket-count array is represented as an
association list sorted by bucket index, with absent buckets holding zero.
The atomic variant has, per the spec, the identical sequential semantics,
so a single embedding covers both. -/

/-- Modelled from the spec: number of linear sub-buckets inside the binary
magnitude range starting at `2 ^ m` — `10 ^ precision` of them, except that
a range with fewer than that many integers has one bucket per integer. -/
def subBucketCount (precision m : Nat) : Nat :=
  min (2 ^ m) (10 ^ precision)

/-- Modelled from the spec: number of buckets strictly below the binary
magnitude range starting at `2 ^ m` (bucket 0 holds the value 0). -/
def bucketsBelow (precision : Nat) : Nat → Nat
  | 0 => 1
  | m + 1 => bucketsBelow precision m + subBucketCount precision m

/-- Fuel-driven base-2 logarithm (structural recursion so that the kernel
can evaluate it; 64 units of fuel cover the `u64` domain). -/
def log2fuel : Nat → Nat → Nat
  | 0, _ => 0
  | fuel + 1, n => if n < 2 then 0 else log2fuel fuel (n / 2) + 1

/-- Base-2 logarithm on the `u64` domain. -/
def nlog2 (n : Nat) : Nat := log2fuel 64 n

/-- Modelled from the spec: `index_of(value)` of the missing bucket scheme.
Values of 0 map to bucket 0; values above `max_value` saturate; otherwise
the bucket is the linear sub-bucket of the value inside its binary
magnitude range. -/
def index_of (precision max_value value : Nat) : Nat :=
  if value = 0 then 0
  else
    let v := min value max_value
    let m := nlog2 v
    bucketsBelow precision m + (v - 2 ^ m) * subBucketCount precision m / 2 ^ m

/-- Modelled from the spec: the binary magnitude range a nonzero bucket
index falls in, recovered from the cumulative bucket counts (64 ranges
cover the whole `u64` domain). -/
def rangeOf (precision i : Nat) : Nat :=
  ((List.range 64).filter (fun m => bucketsBelow precision (m + 1) ≤ i)).length

/-- Modelled from the spec: `value_of(index)` of the missing bucket scheme,
returning the bucket's lower bound (the smallest value mapping to it). -/
def value_of (precision i : Nat) : Nat :=
  if i = 0 then 0
  else
    let m := rangeOf precision i
    let sub := i - bucketsBelow precision m
    let g := subBucketCount precision m
    2 ^ m + (sub * 2 ^ m + g - 1) / g

/-- Modelled from the spec: one ring slot — a generation tag plus the
histogram counts of its time slice. -/
structure Window where
  generation : Nat
  counts : List (Nat × Nat)
deriving DecidableEq

/-- Largest `u64` value, the saturation bound of a window's counters. -/
def U64max : Nat := U64 - 1

/-- Modelled from the spec: `Window.insert(bucket, count)` — saturating add
into the bucket's counter, keeping the association list sorted by bucket
index. -/
def insertCount : List (Nat × Nat) → Nat → Nat → List (Nat × Nat)
  | [], b, c => [(b, c)]
  | (b0, c0) :: rest, b, c =>
    if b < b0 then (b, c) :: (b0, c0) :: rest
    else if b = b0 then (b0, min (c0 + c) U64max) :: rest
    else (b0, c0) :: insertCount rest b c

/-- Modelled from the spec: elementwise addition of one bucket's count into
a merged counts list (the merge is an unbounded mathematical sum). -/
def addEntry : List (Nat × Nat) → Nat → Nat → List (Nat × Nat)
  | [], b, c => [(b, c)]
  | (b0, c0) :: rest, b, c =>
    if b < b0 then (b, c) :: (b0, c0) :: rest
    else if b = b0 then (b0, c0 + c) :: rest
    else (b0, c0) :: addEntry rest b c

/-- Modelled from the spec: one step of the merge — accumulate a window's
counts into the running elementwise sum when the window is selected. -/
def mergeStep (inc : Window → Bool) (acc : List (Nat × Nat)) (w : Window) :
    List (Nat × Nat) :=
  if inc w then w.counts.foldl (fun a e => addEntry a e.1 e.2) acc else acc

/-- Modelled from the spec: elementwise sum of the counts of the windows
selected by `inc`. -/
def mergeWindows (ws : List Window) (inc : Window → Bool) : List (Nat × Nat) :=
  ws.foldl (mergeStep inc) []

/-- Modelled from the spec: the heatmap — construction parameters,
creation time, and the ring of `span / resolution` windows. -/
structure Heatmap where
  max_value : Nat
  precision : Nat
  span : Nat
  resolution : Nat
  creation_time : Nat
  slots : List Window
deriving DecidableEq

/-- Error type of heatmap queries. -/
inductive HeatmapError
  | Empty
deriving DecidableEq

deriving instance DecidableEq for Except

/-- Modelled from the spec: `Heatmap::new(max_value, precision, span,
resolution)` builds `span / resolution` empty windows and records the
creation time. -/
def Heatmap.new (max_value precision span resolution creation : Nat) : Heatmap :=
  { max_value := max_value
    precision := precision
    span := span
    resolution := resolution
    creation_time := creation
    slots := List.replicate (span / resolution) ⟨0, []⟩ }

/-- Modelled from the spec: `increment(time, value, count)` — a no-op for a
time before creation; otherwise the target generation and slot are
computed, the slot is lazily cleared when its generation tag differs, and
the value's bucket is incremented. -/
def Heatmap.increment (h : Heatmap) (time value count : Nat) : Heatmap :=
  if time < h.creation_time then h
  else
    let g := (time - h.creation_time) / h.resolution
    let n := h.slots.length
    if n = 0 then h
    else
      let s := g % n
      let w0 := h.slots.getD s ⟨0, []⟩
      let w1 := if w0.generation = g then w0 else ⟨g, []⟩
      { h with
          slots := h.slots.set s
            ⟨g, insertCount w1.counts (index_of h.precision h.max_value value) count⟩ }

/-- Modelled from the spec: a window is included in the merge iff its
generation falls within the trailing span, `generation > current - N` over
the integers. -/
def Window.included (n cg : Nat) (w : Window) : Bool :=
  decide ((cg : ℤ) - (n : ℤ) < (w.generation : ℤ))

/-- Modelled from the spec: cumulative-sum walk in ascending bucket order,
returning the first bucket whose cumulative count reaches the needed
rank. -/
def walkBuckets : List (Nat × Nat) → Nat → Nat → Option Nat
  | [], _, _ => none
  | (b, c) :: rest, needed, cum =>
    if needed ≤ cum + c then some b else walkBuckets rest needed (cum + c)

/-- Modelled from the spec: the rank targeted by a percentile request,
`max 1 ceil(p / 100 * total)`, computed by integer floor division on the
normalized numerator and denominator of `p` so that the kernel can
evaluate it (`ceil(x / y) = floor((x + y - 1) / y)` for `y > 0`). -/
def neededRank (p : ℚ) (total : Nat) : Nat :=
  max 1
    (((p.num * (total : ℤ) + ((p.den : ℤ) * 100 - 1)).fdiv
        ((p.den : ℤ) * 100)).toNat)

/-- Modelled from the spec: `percentile(p)` — merge the non-stale windows,
return `Empty` when the merged total is zero, otherwise walk to the bucket
holding the sample of rank `max 1 ceil(p / 100 * total)` (so `p = 0` yields
the smallest nonzero bucket and `p = 100` the largest) and return its lower
bound. -/
def Heatmap.percentile (h : Heatmap) (now : Nat) (p : ℚ) :
    Except HeatmapError Nat :=
  let cg := (now - h.creation_time) / h.resolution
  let merged := mergeWindows h.slots (Window.included h.slots.length cg)
  let total := (merged.map Prod.snd).sum
  if total = 0 then .error .Empty
  else
    match walkBuckets merged (neededRank p total) 0 with
    | some b => .ok (value_of h.precision b)
    | none => .error .Empty

/-! ### Helper lemmas about the channel operations -/

theorem record_counter_stale (c : Channel) (time value : Nat)
    (h : time ≤ c.refreshed) : c.record_counter time value = c := by
  simp [Channel.record_counter, h]

theorem record_gauge_stale (c : Channel) (time value : Nat)
    (h : time ≤ c.refreshed) : c.record_gauge time value = c := by
  simp [Channel.record_gauge, h]

theorem record_counter_fresh_summary (c : Channel) (time value : Nat)
    (s : List Sample) (hs : c.summary = some s) (he : c.empty = false)
    (ht : c.refreshed < time) :
    c.record_counter time value =
      { c with
          refreshed := time
          reading := value
          summary := some (s ++
            [⟨time, rateSample (wsub value c.reading) (time - c.refreshed), 1⟩]) } := by
  have h2 : ¬ time ≤ c.refreshed := not_le.mpr ht
  simp [Channel.record_counter, h2, he, hs, summaryIncrement]

theorem record_counter_first (c : Channel) (time value : Nat)
    (he : c.empty = true) (ht : c.refreshed < time) :
    c.record_counter time value =
      { c with reading := value, empty := false, refreshed := time } := by
  have h2 : ¬ time ≤ c.refreshed := not_le.mpr ht
  simp [Channel.record_counter, h2, he]

theorem record_gauge_fresh (c : Channel) (time value : Nat)
    (ht : c.refreshed < time) :
    c.record_gauge time value =
      { c with
          reading := value
          empty := false
          refreshed := time
          summary := match c.summary with
            | some s => some (s ++ [⟨time, value, 1⟩])
            | none => none } := by
  have h2 : ¬ time ≤ c.refreshed := not_le.mpr ht
  cases hs : c.summary with
  | none => simp [Channel.record_gauge, h2, hs]
  | some s => simp [Channel.record_gauge, h2, hs, summaryIncrement]

/-! ### Claims about the channel layer -/

/-- C2: for every channel state and timestamp less than or equal to the
stored refresh instant, both record_counter and record_gauge leave the
channel state (reading, empty flag, refresh instant, summary) exactly
unchanged. -/
theorem stale_timestamp_noop (c : Channel) (time value : Nat)
    (h : time ≤ c.refreshed) :
    c.record_counter time value = c ∧ c.record_gauge time value = c :=
  ⟨record_counter_stale c time value h, record_gauge_stale c time value h⟩

theorem stale_timestamp_noop_witness :
    (3 : Nat) ≤ (Channel.new 3 true).refreshed ∧
      ((Channel.new 3 true).record_counter 3 9 = Channel.new 3 true ∧
        (Channel.new 3 true).record_gauge 3 9 = Channel.new 3 true) :=
  ⟨by decide, stale_timestamp_noop (Channel.new 3 true) 3 9 (by decide)⟩

/-- C5: record_gauge with a strictly newer timestamp inserts the value
itself (count 1) into the summary when one is configured, and in all cases
stores the value as the reading, marks the channel non-empty, and stores
the timestamp as the refresh instant. -/
theorem record_gauge_fresh_spec (c : Channel) (time value : Nat)
    (ht : c.refreshed < time) :
    (c.record_gauge time value).reading = value ∧
      (c.record_gauge time value).empty = false ∧
      (c.record_gauge time value).refreshed = time ∧
      (∀ s, c.summary = some s →
        (c.record_gauge time value).summary = some (s ++ [⟨time, value, 1⟩])) ∧
      (c.summary = none → (c.record_gauge time value).summary = none) := by
  rw [record_gauge_fresh c time value ht]
  refine ⟨rfl, rfl, rfl, ?_, ?_⟩
  · intro s hs
    simp [hs]
  · intro hs
    simp [hs]

theorem record_gauge_fresh_spec_witness :
    (Channel.new 0 true).refreshed < 5 ∧
      ((Channel.new 0 true).record_gauge 5 9).reading = 9 ∧
      ((Channel.new 0 true).record_gauge 5 9).empty = false ∧
      ((Channel.new 0 true).record_gauge 5 9).refreshed = 5 ∧
      ((Channel.new 0 true).record_gauge 5 9).summary = some ([] ++ [⟨5, 9, 1⟩]) :=
  ⟨by decide,
    (record_gauge_fresh_spec (Channel.new 0 true) 5 9 (by decide)).1,
    (record_gauge_fresh_spec (Channel.new 0 true) 5 9 (by decide)).2.1,
    (record_gauge_fresh_spec (Channel.new 0 true) 5 9 (by decide)).2.2.1,
    (record_gauge_fresh_spec (Channel.new 0 true) 5 9 (by decide)).2.2.2.1 [] rfl⟩

/-- C6: increment_counter adds the value to the current reading (a
wrapping u64 add) and marks the channel non-empty, with no timestamp
comparison; the summary and refresh instant are unchanged. -/
theorem increment_counter_spec (c : Channel) (value : Nat) :
    (c.increment_counter value).reading = (c.reading + value) % U64 ∧
      (c.increment_counter value).empty = false ∧
      (c.increment_counter value).summary = c.summary ∧
      (c.increment_counter value).refreshed = c.refreshed := by
  refine ⟨?_, rfl, rfl, rfl⟩
  simp [Channel.increment_counter, wadd]

/-- C7: with no summary configured, percentile returns NoSummary for every
percentile and every summary query function, record_bucket returns
NoSummary and leaves the state unchanged, and the raw reading is still
served once the channel is non-empty. -/
theorem no_summary_spec (c : Channel)
    (sp : List Sample → ℚ → Except MetricsError Nat) (p : ℚ)
    (time value count : Nat) (h : c.summary = none) :
    Channel.percentile sp c p = .error .NoSummary ∧
      c.record_bucket time value count = (c, .error .NoSummary) ∧
      (c.empty = false → c.reading_result = .ok c.reading) := by
  refine ⟨?_, ?_, ?_⟩
  · simp [Channel.percentile, h]
  · simp [Channel.record_bucket, h]
  · intro he
    simp [Channel.reading_result, he]

theorem no_summary_spec_witness :
    ({ refreshed := 0, empty := false, reading := 5,
       summary := none : Channel }).summary = none ∧
      Channel.percentile (fun _ _ => .error .Empty)
        { refreshed := 0, empty := false, reading := 5, summary := none } 50 =
        .error .NoSummary ∧
      ({ refreshed := 0, empty := false, reading := 5,
         summary := none : Channel }).record_bucket 1 2 3 =
        ({ refreshed := 0, empty := false, reading := 5, summary := none },
          .error .NoSummary) ∧
      ({ refreshed := 0, empty := false, reading := 5,
         summary := none : Channel }).reading_result = .ok 5 :=
  ⟨rfl,
    (no_summary_spec
      { refreshed := 0, empty := false, reading := 5, summary := none }
      (fun _ _ => .error .Empty) 50 1 2 3 rfl).1,
    (no_summary_spec
      { refreshed := 0, empty := false, reading := 5, summary := none }
      (fun _ _ => .error .Empty) 50 1 2 3 rfl).2.1,
    (no_summary_spec
      { refreshed := 0, empty := false, reading := 5, summary := none }
      (fun _ _ => .error .Empty) 50 1 2 3 rfl).2.2 rfl⟩

/-- C8: counter rollback is unguarded — on a non-empty channel with a
summary, a strictly newer timestamp with a value strictly below the stored
reading still inserts one rate sample, computed from the wrapped
(underflowing) u64 difference `value + 2 ^ 64 - reading`, and stores the
smaller value as the reading. -/
theorem record_counter_rollback_unguarded (c : Channel) (time value : Nat)
    (s : List Sample) (hs : c.summary = some s) (he : c.empty = false)
    (ht : c.refreshed < time) (hv : value < c.reading) :
    (c.record_counter time value).summary =
      some (s ++
        [⟨time, rateSample (value + U64 - c.reading) (time - c.refreshed), 1⟩]) ∧
      (c.record_counter time value).reading = value := by
  rw [record_counter_fresh_summary c time value s hs he ht]
  have hw : wsub value c.reading = value + U64 - c.reading := by
    simp [wsub, not_le.mpr hv]
  exact ⟨by rw [hw], rfl⟩

theorem record_counter_rollback_unguarded_witness :
    ({ refreshed := 0, empty := false, reading := 10,
       summary := some [] : Channel }).summary = some [] ∧
      ({ refreshed := 0, empty := false, reading := 10,
         summary := some [] : Channel }).empty = false ∧
      ({ refreshed := 0, empty := false, reading := 10,
         summary := some [] : Channel }).refreshed < 1000000000 ∧
      (3 : Nat) < 10 ∧
      ((({ refreshed := 0, empty := false, reading := 10,
           summary := some [] : Channel }).record_counter 1000000000 3).summary =
          some [⟨1000000000, rateSample (3 + U64 - 10) 1000000000, 1⟩] ∧
        (({ refreshed := 0, empty := false, reading := 10,
            summary := some [] : Channel }).record_counter 1000000000 3).reading = 3) :=
  ⟨rfl, rfl, by decide, by decide,
    record_counter_rollback_unguarded
      { refreshed := 0, empty := false, reading := 10, summary := some [] }
      1000000000 3 [] rfl rfl (by decide) (by decide)⟩

/-- C9: a fresh channel's refresh instant is the construction instant, so
a record whose timestamp is not strictly later is a no-op and the reading
stays Empty; the first record is accepted exactly when its timestamp is
strictly later than construction. -/
theorem channel_new_rejects_until_after_construction (now t value : Nat)
    (b : Bool) (h : t ≤ now) :
    (Channel.new now b).refreshed = now ∧
      (Channel.new now b).record_counter t value = Channel.new now b ∧
      (Channel.new now b).record_gauge t value = Channel.new now b ∧
      ((Channel.new now b).record_counter t value).reading_result =
        .error .Empty ∧
      ((Channel.new now b).record_gauge t value).reading_result =
        .error .Empty ∧
      (∀ t2, now < t2 →
        ((Channel.new now b).record_counter t2 value).reading_result =
          .ok value) := by
  have hc := record_counter_stale (Channel.new now b) t value h
  have hg := record_gauge_stale (Channel.new now b) t value h
  refine ⟨rfl, hc, hg, ?_, ?_, ?_⟩
  · rw [hc]; rfl
  · rw [hg]; rfl
  · intro t2 ht2
    rw [record_counter_first (Channel.new now b) t2 value rfl ht2]
    rfl

theorem channel_new_rejects_until_after_construction_witness :
    (4 : Nat) ≤ 4 ∧
      (Channel.new 4 true).refreshed = 4 ∧
      (Channel.new 4 true).record_counter 4 9 = Channel.new 4 true ∧
      (Channel.new 4 true).record_gauge 4 9 = Channel.new 4 true ∧
      ((Channel.new 4 true).record_counter 4 9).reading_result =
        .error .Empty ∧
      ((Channel.new 4 true).record_gauge 4 9).reading_result =
        .error .Empty ∧
      ((Channel.new 4 true).record_counter 7 9).reading_result = .ok 9 :=
  ⟨by decide,
    (channel_new_rejects_until_after_construction 4 4 9 true (by decide)).1,
    (channel_new_rejects_until_after_construction 4 4 9 true (by decide)).2.1,
    (channel_new_rejects_until_after_construction 4 4 9 true (by decide)).2.2.1,
    (channel_new_rejects_until_after_construction 4 4 9 true
      (by decide)).2.2.2.1,
    (channel_new_rejects_until_after_construction 4 4 9 true
      (by decide)).2.2.2.2.1,
    (channel_new_rejects_until_after_construction 4 4 9 true
      (by decide)).2.2.2.2.2 7 (by decide)⟩

/-- The natural ceiling division used by `rateSample` is the ceiling of
the exact rational rate `dv / (dt / 1e9)`. -/
theorem rateSample_eq_ceil (dv dt : Nat) (h : 0 < dt) :
    (rateSample dv dt : ℤ) = ⌈(dv : ℚ) / ((dt : ℚ) / 1000000000)⌉ := by
  have hdt : (0 : ℚ) < (dt : ℚ) := by exact_mod_cast h
  have hx : (dv : ℚ) / ((dt : ℚ) / 1000000000) =
      ((dv * 1000000000 : ℕ) : ℚ) / (dt : ℚ) := by
    rw [div_div_eq_mul_div]
    push_cast
    ring
  rw [hx]
  set a : Nat := dv * 1000000000 with ha
  have hz2 : rateSample dv dt = (a + dt - 1) / dt := rfl
  rw [hz2]
  set z : Nat := (a + dt - 1) / dt with hzdef
  have h1 : z * dt ≤ a + dt - 1 := by
    rw [hzdef]; exact Nat.div_mul_le_self _ _
  have h2 : a + dt - 1 < z * dt + dt := by
    have hm : (a + dt - 1) % dt < dt := Nat.mod_lt _ h
    have hdm : dt * ((a + dt - 1) / dt) + (a + dt - 1) % dt = a + dt - 1 :=
      Nat.div_add_mod _ _
    have hc : ((a + dt - 1) / dt) * dt = dt * ((a + dt - 1) / dt) :=
      Nat.mul_comm _ _
    rw [hzdef]
    omega
  have hq1 : (z : ℚ) * dt ≤ (a : ℚ) + dt - 1 := by
    calc (z : ℚ) * dt ≤ ((a + dt - 1 : ℕ) : ℚ) := by exact_mod_cast h1
      _ = (a : ℚ) + dt - 1 := by
          rw [Nat.cast_sub (by omega : 1 ≤ a + dt)]
          push_cast
          ring
  have h3 : a ≤ z * dt := by omega
  have hq2 : (a : ℚ) ≤ (z : ℚ) * dt := by exact_mod_cast h3
  refine le_antisymm ?_ ?_
  · have hlt : ((z : ℤ) - 1) < ⌈(a : ℚ) / (dt : ℚ)⌉ := by
      rw [Int.lt_ceil]
      push_cast
      rw [lt_div_iff₀ hdt]
      have e : ((z : ℚ) - 1) * dt = (z : ℚ) * dt - dt := by ring
      rw [e]
      linarith
    omega
  · rw [Int.ceil_le]
    push_cast
    rw [div_le_iff₀ hdt]
    linarith

/-- C1: on a non-empty channel with a summary, record_counter with a
strictly newer timestamp inserts exactly one sample of count 1 whose value
is the ceiling of (value - old_reading) / elapsed_seconds, with
elapsed_seconds the elapsed nanoseconds over 1e9, and then stores the
value as the new reading. -/
theorem record_counter_rate_spec (c : Channel) (time value : Nat)
    (s : List Sample) (hs : c.summary = some s) (he : c.empty = false)
    (ht : c.refreshed < time) (hv : c.reading ≤ value) :
    (c.record_counter time value).summary =
      some (s ++ [⟨time,
        (⌈((value - c.reading : Nat) : ℚ) /
            (((time - c.refreshed : Nat) : ℚ) / 1000000000)⌉).toNat, 1⟩]) ∧
      (c.record_counter time value).reading = value := by
  rw [record_counter_fresh_summary c time value s hs he ht]
  refine ⟨?_, rfl⟩
  have hw : wsub value c.reading = value - c.reading := by
    simp [wsub, hv]
  have hdt : 0 < time - c.refreshed := by omega
  have hcast := rateSample_eq_ceil (value - c.reading) (time - c.refreshed) hdt
  have h2 : rateSample (value - c.reading) (time - c.refreshed) =
      (⌈((value - c.reading : Nat) : ℚ) /
          (((time - c.refreshed : Nat) : ℚ) / 1000000000)⌉).toNat := by
    rw [← hcast]
    simp
  rw [hw, h2]

theorem record_counter_rate_spec_witness :
    ({ refreshed := 0, empty := false, reading := 1,
       summary := some [] : Channel }).summary = some [] ∧
      ({ refreshed := 0, empty := false, reading := 1,
         summary := some [] : Channel }).empty = false ∧
      ({ refreshed := 0, empty := false, reading := 1,
         summary := some [] : Channel }).refreshed < 500000000 ∧
      ({ refreshed := 0, empty := false, reading := 1,
         summary := some [] : Channel }).reading ≤ 4 ∧
      ((({ refreshed := 0, empty := false, reading := 1,
           summary := some [] : Channel }).record_counter 500000000 4).summary =
          some [⟨500000000,
            (⌈(((4 : Nat) - 1 : Nat) : ℚ) /
                ((((500000000 : Nat) - 0 : Nat) : ℚ) / 1000000000)⌉).toNat, 1⟩] ∧
        (({ refreshed := 0, empty := false, reading := 1,
            summary := some [] : Channel }).record_counter 500000000 4).reading = 4) :=
  ⟨rfl, rfl, by decide, by decide,
    record_counter_rate_spec
      { refreshed := 0, empty := false, reading := 1, summary := some [] }
      500000000 4 [] rfl rfl (by decide) (by decide)⟩

/-! ### Claims about the clock -/

/-- C4: refresh_with_sec_timestamp faults exactly when the new timestamp
is more than one second smaller than the cached coarse value; a backward
jump of at most one second does not fault and the call returns false. -/
theorem refresh_backward_jump_policy (c : Clock) (t : Nat) :
    (c.refresh_with_sec_timestamp t = none ↔ t + 1 < c.recent_coarse) ∧
      (t < c.recent_coarse → c.recent_coarse ≤ t + 1 →
        c.refresh_with_sec_timestamp t =
          some ({ c with recent_precise := t * 1000000000,
                         recent_coarse := t }, false)) := by
  simp only [Clock.refresh_with_sec_timestamp]
  constructor
  · split_ifs with h1 h2 h3 <;> simp <;> omega
  · intro hlt hle
    split_ifs with h1 h2 <;> first | rfl | (exfalso; omega)

theorem refresh_backward_jump_policy_witness :
    (({ initialized := false, recent_coarse := 5, recent_precise := 0,
        recent_unix := 0 : Clock }).refresh_with_sec_timestamp 4 = none ↔
      (4 : Nat) + 1 < 5) ∧
      ({ initialized := false, recent_coarse := 5, recent_precise := 0,
         recent_unix := 0 : Clock }).refresh_with_sec_timestamp 4 =
        some ({ initialized := false, recent_coarse := 4,
                recent_precise := 4000000000, recent_unix := 0 }, false) :=
  ⟨(refresh_backward_jump_policy
      { initialized := false, recent_coarse := 5, recent_precise := 0,
        recent_unix := 0 } 4).1,
    (refresh_backward_jump_policy
      { initialized := false, recent_coarse := 5, recent_precise := 0,
        recent_unix := 0 } 4).2 (by decide) (by decide)⟩

/-- C10: refresh_with_sec_timestamp never sets the initialized flag, so
after refreshing a never-refreshed clock to a timestamp of at least two
seconds, recent_precise and recent_unix both panic: their lazy
initialization replays timestamp 0, a backward jump of more than one
second. -/
theorem refresh_uninitialized_then_read_panics (c : Clock) (t : Nat)
    (r : Clock × Bool) (hr : c.refresh_with_sec_timestamp t = some r)
    (t2 : Nat) (h2 : 2 ≤ t2) (r2 : Clock × Bool)
    (hr2 : Clock.new.refresh_with_sec_timestamp t2 = some r2) :
    r.1.initialized = c.initialized ∧
      r2.1.recent_precise_result = none ∧
      r2.1.recent_unix_result = none := by
  refine ⟨?_, ?_, ?_⟩
  · simp only [Clock.refresh_with_sec_timestamp] at hr
    split_ifs at hr <;> cases hr <;> rfl
  all_goals
    simp only [Clock.refresh_with_sec_timestamp, Clock.new] at hr2
    split_ifs at hr2 with a b d <;> try (exfalso; omega)
    cases hr2
    have hp :
        Clock.refresh_with_sec_timestamp
          { initialized := false, recent_coarse := t2,
            recent_precise := t2 * 1000000000, recent_unix := 0 } 0 = none := by
      simp only [Clock.refresh_with_sec_timestamp]
      split_ifs with a2 b2 d2 <;> first | rfl | (exfalso; omega)
    simp [Clock.recent_precise_result, Clock.recent_unix_result,
      Clock.initClock, hp]

theorem refresh_uninitialized_then_read_panics_witness :
    ({ initialized := true, recent_coarse := 0, recent_precise := 0,
       recent_unix := 0 : Clock }).refresh_with_sec_timestamp 3 =
        some ({ initialized := true, recent_coarse := 3,
                recent_precise := 3000000000, recent_unix := 0 }, true) ∧
      (2 : Nat) ≤ 3 ∧
      Clock.new.refresh_with_sec_timestamp 3 =
        some ({ initialized := false, recent_coarse := 3,
                recent_precise := 3000000000, recent_unix := 0 }, true) ∧
      (({ initialized := true, recent_coarse := 3,
          recent_precise := 3000000000, recent_unix := 0 : Clock},
          true).1.initialized =
        ({ initialized := true, recent_coarse := 0, recent_precise := 0,
           recent_unix := 0 : Clock }).initialized ∧
        ({ initialized := false, recent_coarse := 3,
           recent_precise := 3000000000, recent_unix := 0 : Clock},
           (true : Bool)).1.recent_precise_result = none ∧
        ({ initialized := false, recent_coarse := 3,
           recent_precise := 3000000000, recent_unix := 0 : Clock},
           (true : Bool)).1.recent_unix_result = none) :=
  ⟨by decide, by decide, by decide,
    refresh_uninitialized_then_read_panics
      { initialized := true, recent_coarse := 0, recent_precise := 0,
        recent_unix := 0 } 3
      ({ initialized := true, recent_coarse := 3,
         recent_precise := 3000000000, recent_unix := 0 }, true) (by decide)
      3 (by decide)
      ({ initialized := false, recent_coarse := 3,
         recent_precise := 3000000000, recent_unix := 0 }, true) (by decide)⟩

/-! ### Lemmas for the heatmap scenario -/

theorem foldl_mergeStep_empty (inc : Window → Bool) :
    ∀ (ws : List Window) (acc : List (Nat × Nat)),
      (∀ w ∈ ws, w.counts = []) → ws.foldl (mergeStep inc) acc = acc := by
  intro ws
  induction ws with
  | nil => intro acc h; rfl
  | cons w ws ih =>
    intro acc h
    have hw : w.counts = [] := h w (List.mem_cons_self w ws)
    have hws : ∀ w2 ∈ ws, w2.counts = [] := fun w2 hm =>
      h w2 (List.mem_cons_of_mem _ hm)
    rw [List.foldl_cons]
    have hstep : mergeStep inc acc w = acc := by
      simp [mergeStep, hw]
    rw [hstep]
    exact ih acc hws

theorem mergeWindows_replicate_empty (inc : Window → Bool) (n : Nat) :
    mergeWindows (List.replicate n ⟨0, []⟩) inc = [] :=
  foldl_mergeStep_empty inc _ []
    (fun w hm => by rw [List.eq_of_mem_replicate hm])

theorem replicate_set_decomp {α : Type} (w0 w1 : α) :
    ∀ (n s : Nat), s < n →
      (List.replicate n w0).set s w1 =
        List.replicate s w0 ++ w1 :: List.replicate (n - s - 1) w0 := by
  intro n
  induction n with
  | zero => intro s h; exact absurd h (Nat.not_lt_zero s)
  | succ n ih =>
    intro s h
    cases s with
    | zero => simp [List.replicate_succ]
    | succ s =>
      have hs : s < n := by omega
      rw [List.replicate_succ]
      show w0 :: (List.replicate n w0).set s w1 = _
      rw [ih s hs, List.replicate_succ]
      simp [Nat.succ_sub_succ]

theorem getD_replicate {α : Type} (a d : α) :
    ∀ (n i : Nat), i < n → (List.replicate n a).getD i d = a := by
  intro n
  induction n with
  | zero => intro i h; exact absurd h (Nat.not_lt_zero i)
  | succ n ih =>
    intro i h
    cases i with
    | zero => rfl
    | succ i => exact ih i (by omega)

theorem mergeWindows_single (inc : Window → Bool) (n s : Nat) (w1 : Window)
    (hs : s < n) :
    mergeWindows ((List.replicate n (⟨0, []⟩ : Window)).set s w1) inc =
      mergeStep inc [] w1 := by
  rw [replicate_set_decomp (⟨0, []⟩ : Window) w1 n s hs]
  unfold mergeWindows
  rw [List.foldl_append]
  rw [foldl_mergeStep_empty inc (List.replicate s ⟨0, []⟩) []
    (fun w hm => by rw [List.eq_of_mem_replicate hm])]
  rw [List.foldl_cons]
  exact foldl_mergeStep_empty inc _ _
    (fun w hm => by rw [List.eq_of_mem_replicate hm])

theorem heatmap_new_eq (tc : Nat) :
    Heatmap.new 1000000 2 1000000000 1000000 tc =
      { max_value := 1000000, precision := 2, span := 1000000000,
        resolution := 1000000, creation_time := tc,
        slots := List.replicate 1000 ⟨0, []⟩ } := by
  unfold Heatmap.new
  norm_num

theorem percentile_replicate_empty (mv pr sp re ct n ta : Nat) (pa : ℚ) :
    Heatmap.percentile
      { max_value := mv, precision := pr, span := sp, resolution := re,
        creation_time := ct, slots := List.replicate n ⟨0, []⟩ } ta pa =
      .error .Empty := by
  simp only [Heatmap.percentile, mergeWindows_replicate_empty, List.map_nil,
    List.sum_nil]
  rfl

theorem percentile_fresh (tc ta : Nat) (pa : ℚ) :
    (Heatmap.new 1000000 2 1000000000 1000000 tc).percentile ta pa =
      .error .Empty := by
  rw [heatmap_new_eq]
  exact percentile_replicate_empty 1000000 2 1000000000 1000000 tc 1000 ta pa

theorem increment_scenario (tc t1 : Nat) (h1 : tc ≤ t1) :
    (Heatmap.new 1000000 2 1000000000 1000000 tc).increment t1 1 1 =
      { max_value := 1000000, precision := 2, span := 1000000000,
        resolution := 1000000, creation_time := tc,
        slots := (List.replicate 1000 ⟨0, []⟩).set
          ((t1 - tc) / 1000000 % 1000)
          ⟨(t1 - tc) / 1000000, [(1, 1)]⟩ } := by
  rw [heatmap_new_eq]
  have hc1 : ¬ t1 < tc := by omega
  have hget : (List.replicate 1000 (⟨0, []⟩ : Window)).getD
      ((t1 - tc) / 1000000 % 1000) ⟨0, []⟩ = ⟨0, []⟩ :=
    getD_replicate _ _ _ _ (Nat.mod_lt _ (by norm_num))
  have hidx : index_of 2 1000000 1 = 1 := by decide
  simp only [Heatmap.increment, List.length_replicate, hc1, if_false,
    hget, hidx]
  norm_num
  have hite : (if (0 : Nat) = (t1 - tc) / 1000000 then (⟨0, []⟩ : Window)
      else ⟨(t1 - tc) / 1000000, []⟩) = ⟨(t1 - tc) / 1000000, []⟩ := by
    split
    · next h => rw [← h]
    · rfl
  rw [hite]
  rfl

theorem percentile_after_included (tc t1 tq : Nat) (p : ℚ) (h1 : tc ≤ t1)
    (hinc : (((tq - tc) / 1000000 : Nat) : ℤ) - 1000 <
      (((t1 - tc) / 1000000 : Nat) : ℤ)) :
    ((Heatmap.new 1000000 2 1000000000 1000000 tc).increment t1 1 1).percentile
        tq p =
      match walkBuckets [(1, 1)] (neededRank p 1) 0 with
      | some b => .ok (value_of 2 b)
      | none => .error .Empty := by
  rw [increment_scenario tc t1 h1]
  have hinc2 : Window.included 1000 ((tq - tc) / 1000000)
      ⟨(t1 - tc) / 1000000, [(1, 1)]⟩ = true := by
    simp only [Window.included, decide_eq_true_eq]
    exact hinc
  simp only [Heatmap.percentile, List.length_set, List.length_replicate]
  rw [mergeWindows_single _ 1000 _ _ (Nat.mod_lt _ (by norm_num))]
  simp only [mergeStep, hinc2, if_true, List.foldl_cons, List.foldl_nil,
    addEntry, List.map_cons, List.map_nil, List.sum_cons, List.sum_nil]
  norm_num

theorem percentile_after_excluded (tc t1 tq : Nat) (p : ℚ) (h1 : tc ≤ t1)
    (hexc : ¬ ((((tq - tc) / 1000000 : Nat) : ℤ) - 1000 <
      (((t1 - tc) / 1000000 : Nat) : ℤ))) :
    ((Heatmap.new 1000000 2 1000000000 1000000 tc).increment t1 1 1).percentile
        tq p = .error .Empty := by
  rw [increment_scenario tc t1 h1]
  have hinc2 : Window.included 1000 ((tq - tc) / 1000000)
      ⟨(t1 - tc) / 1000000, [(1, 1)]⟩ = false := by
    simp only [Window.included, decide_eq_false_iff_not]
    exact hexc
  simp only [Heatmap.percentile, List.length_set, List.length_replicate]
  rw [mergeWindows_single _ 1000 _ _ (Nat.mod_lt _ (by norm_num))]
  simp only [mergeStep, hinc2]
  norm_num

/-- C3: the heatmap built with max_value 1e6, precision 2, span 1s,
resolution 1ms: percentile on the fresh instance is Empty; after
increment(t1, 1, 1) percentile(0) is Ok 1, still Ok 1 when queried 100ms
later, and Empty for any rank once more than span + resolution has elapsed
since the increment.  The atomic variant has the identical sequential
semantics, so the single embedding covers both. -/
theorem heatmap_age_out_scenario (tc t1 tq ta : Nat) (pa pd : ℚ)
    (h1 : tc ≤ t1) (hq : t1 + 1001000000 < tq) :
    (Heatmap.new 1000000 2 1000000000 1000000 tc).percentile ta pa =
        .error .Empty ∧
      ((Heatmap.new 1000000 2 1000000000 1000000 tc).increment t1 1
          1).percentile t1 0 = .ok 1 ∧
      ((Heatmap.new 1000000 2 1000000000 1000000 tc).increment t1 1
          1).percentile (t1 + 100000000) 0 = .ok 1 ∧
      ((Heatmap.new 1000000 2 1000000000 1000000 tc).increment t1 1
          1).percentile tq pd = .error .Empty := by
  refine ⟨percentile_fresh tc ta pa, ?_, ?_, ?_⟩
  · rw [percentile_after_included tc t1 t1 0 h1 (by omega)]
    decide
  · rw [percentile_after_included tc t1 (t1 + 100000000) 0 h1 (by omega)]
    decide
  · exact percentile_after_excluded tc t1 tq pd h1 (by omega)

theorem heatmap_age_out_scenario_witness :
    (0 : Nat) ≤ 0 ∧ (0 : Nat) + 1001000000 < 1001000001 ∧
      ((Heatmap.new 1000000 2 1000000000 1000000 0).percentile 0 0 =
          .error .Empty ∧
        ((Heatmap.new 1000000 2 1000000000 1000000 0).increment 0 1
            1).percentile 0 0 = .ok 1 ∧
        ((Heatmap.new 1000000 2 1000000000 1000000 0).increment 0 1
            1).percentile (0 + 100000000) 0 = .ok 1 ∧
        ((Heatmap.new 1000000 2 1000000000 1000000 0).increment 0 1
            1).percentile 1001000001 50 = .error .Empty) :=
  ⟨by decide, by decide,
    heatmap_age_out_scenario 0 0 1001000001 0 0 50 (by decide) (by decide)⟩
